import Mathlib

/-!
# Verification of iflow-bot core components

A shallow embedding of the parts of the `iflow_bot` Python code base that the
checked properties talk about:

* the message bus (`src/iflow_bot/bus/queue.py`),
* the session mapping store and CLI chat binding update
  (`src/iflow_bot/engine/adapter.py`),
* the agent loop's streaming fan-out (`src/iflow_bot/engine/loop.py`),
* the cron scheduler (`src/iflow_bot/cron/service.py`),
* the heartbeat service (`src/iflow_bot/heartbeat/service.py`).

Python strings are modelled as `List Char` (`Txt`); Python `dict`s of
string keys as association lists; clock reads and random draws as explicit
parameters; exceptions raised by callbacks as `Except` values.
-/

namespace IflowBot

/-- Text: the model of a Python `str` value, a finite sequence of characters. -/
abbrev Txt := List Char

/-- The ASCII whitespace characters stripped by Python's `str.strip()`. -/
def isPyWs (c : Char) : Bool :=
  c = ' ' || c = '\t' || c = '\n' || c = '\r' || c = '\x0b' || c = '\x0c'

/-- Python `str.strip()`: drop whitespace from both ends. -/
def pyStrip (l : Txt) : Txt :=
  ((l.dropWhile isPyWs).reverse.dropWhile isPyWs).reverse

/-- Python `s.split("\n")`: split a text at every newline.  The result is
always non-empty; the last element is the part after the final newline. -/
def splitNl : Txt → List Txt
  | [] => [[]]
  | c :: rest =>
    match splitNl rest with
    | [] => [[]]
    | h :: t => if c = '\n' then [] :: h :: t else (c :: h) :: t

/-!
## Message types

`src/iflow_bot/bus/events.py` is not part of the sources at hand; the field
structure below is modelled from the spec.
-/

/-- Modelled from the spec: `InboundMessage` (§3) — origin `channel` tag,
`sender_id`, `chat_id`, text `content`, `media` paths.  The `metadata`
mapping is not consulted by any verified operation and is omitted. -/
structure InboundMessage where
  channel : String
  sender_id : String := ""
  chat_id : String
  content : Txt
  media : List Txt := []
deriving DecidableEq, Repr

/-- Modelled from the spec: `OutboundMessage` (§3) — mirror of the inbound
message whose `metadata` carries the control flags `_streaming`,
`_streaming_end` and `_progress`; the flags are modelled as explicit Boolean
fields (absent flag = `false`). -/
structure OutboundMessage where
  channel : String
  chat_id : String
  content : Txt
  media : List Txt := []
  streaming : Bool := false
  progress : Bool := false
  streamingEnd : Bool := false
deriving DecidableEq, Repr

/-!
## Message bus — `src/iflow_bot/bus/queue.py`

`MessageBus` holds two `asyncio.Queue`s of capacity `max_size` (default 100).
A queue is modelled as the list of messages currently enqueued, head =
oldest.  `publish_*` uses `put_nowait`, which raises `QueueFull` when the
queue already holds `max_size` items (for `max_size > 0`; `max_size = 0`
means unbounded); the exception is caught and the message dropped, so the
producer never blocks.  A stopped bus likewise drops.  `consume_*` pops the
head (blocking-until-available is modelled by returning `none` on empty). -/
structure MessageBus where
  cap : Nat := 100
  running : Bool := true
  inbound : List InboundMessage := []
  outbound : List OutboundMessage := []
deriving DecidableEq, Repr

namespace MessageBus

/-- `MessageBus.publish_inbound`. -/
def publish_inbound (b : MessageBus) (msg : InboundMessage) : MessageBus :=
  if !b.running then b
  else if b.cap ≠ 0 ∧ b.cap ≤ b.inbound.length then b   -- QueueFull: drop
  else { b with inbound := b.inbound ++ [msg] }

/-- `MessageBus.publish_outbound`. -/
def publish_outbound (b : MessageBus) (msg : OutboundMessage) : MessageBus :=
  if !b.running then b
  else if b.cap ≠ 0 ∧ b.cap ≤ b.outbound.length then b   -- QueueFull: drop
  else { b with outbound := b.outbound ++ [msg] }

/-- `MessageBus.consume_inbound`: pop the oldest inbound message. -/
def consume_inbound (b : MessageBus) : Option (InboundMessage × MessageBus) :=
  match b.inbound with
  | [] => none
  | m :: rest => some (m, { b with inbound := rest })

/-- `MessageBus.consume_outbound`: pop the oldest outbound message. -/
def consume_outbound (b : MessageBus) : Option (OutboundMessage × MessageBus) :=
  match b.outbound with
  | [] => none
  | m :: rest => some (m, { b with outbound := rest })

end MessageBus

/-!
## Session mapping store — `src/iflow_bot/engine/adapter.py`

`SessionMappingManager` keeps a JSON-backed `dict` from `"channel:chat_id"`
to an iflow session id.  The dict is modelled as an association list with
unique keys kept in insertion order (Python dict semantics); `_save` is a
pure-state no-op here. -/
abbrev Mappings := List (String × String)

/-- The mapping key `f"{channel}:{chat_id}"`. -/
def sessionKey (channel chat_id : String) : String := channel ++ ":" ++ chat_id

/-- `SessionMappingManager.get_session_id`. -/
def getSessionId (m : Mappings) (channel chat_id : String) : Option String :=
  m.lookup (sessionKey channel chat_id)

/-- Python dict assignment `d[k] = v`: replace in place if the key is
present, else append. -/
def dictSet (m : Mappings) (k v : String) : Mappings :=
  if (m.lookup k).isSome then
    m.map (fun p => if p.1 = k then (k, v) else p)
  else m ++ [(k, v)]

/-- `SessionMappingManager.set_session_id`. -/
def setSessionId (m : Mappings) (channel chat_id session_id : String) : Mappings :=
  dictSet m (sessionKey channel chat_id) session_id

/-- `SessionMappingManager.clear_session`: if the key is bound, delete the
binding and return `True`, else return `False`.  The return value is a
Boolean, paired here with the updated mapping state. -/
def clearSession (m : Mappings) (channel chat_id : String) : Bool × Mappings :=
  let k := sessionKey channel chat_id
  if (m.lookup k).isSome then (true, m.filter (fun p => p.1 ≠ k))
  else (false, m)

/-- `IFlowAdapter._chat_cli`, restricted to its effect on the session
mapping state: read the current binding, run the process, and bind the
session id extracted from the output only when the current binding is
Python-falsy (`if not session_id and extracted_session_id`).  `extracted`
is the result of `_extract_session_id_from_output` on the combined
stdout/stderr. -/
def chatCliBindingUpdate (m : Mappings) (channel chat_id : String)
    (extracted : Option String) : Mappings :=
  let session_id := getSessionId m channel chat_id
  let sessionFalsy : Bool := match session_id with
    | none => true
    | some s => s = ""            -- Python truthiness of the bound id
  match extracted with
  | none => m
  | some e =>
    if sessionFalsy && e ≠ "" then setSessionId m channel chat_id e else m

/-!
## Cron scheduler — `src/iflow_bot/cron/service.py`, `src/iflow_bot/cron/types.py`
-/

/-- `ScheduleKind` from `cron/types.py`. -/
inductive ScheduleKind
  | at
  | every
  | cron
deriving DecidableEq, Repr

/-- `CronSchedule` from `cron/types.py`. -/
structure CronSchedule where
  kind : ScheduleKind
  at_ms : Option Int := none
  every_ms : Option Int := none
  expr : Option String := none
  tz : Option String := none
deriving DecidableEq, Repr

/-- `last_status` values (`Literal["ok", "error", "skipped"]`). -/
inductive LastStatus
  | ok
  | error
  | skipped
deriving DecidableEq, Repr

/-- `CronJobState` from `cron/types.py`. -/
structure CronJobState where
  next_run_at_ms : Option Int := none
  last_run_at_ms : Option Int := none
  last_status : Option LastStatus := none
  last_error : Option String := none
deriving DecidableEq, Repr

/-- `CronJob` from `cron/types.py` (the `payload` field is never consulted
by the scheduler logic verified here and is omitted). -/
structure CronJob where
  id : String
  name : String := ""
  enabled : Bool := true
  schedule : CronSchedule
  state : CronJobState := {}
  created_at_ms : Int := 0
  updated_at_ms : Int := 0
  delete_after_run : Bool := false
deriving DecidableEq, Repr

/-- The grace window of `_compute_next_run` for one-shot jobs:
`5 * 60 * 1000` ms. -/
def maxDelayMs : Int := 5 * 60 * 1000

/-- `_compute_next_run(schedule, now_ms)`.

The `cron`-expression branch delegates to the external `croniter` library
(with a simple-parser fallback); that external computation is taken as the
parameter `cronNext expr tz now`.  The `at` and `every` branches follow the
source exactly, including the Python falsiness tests `if not
schedule.at_ms` and `if not schedule.every_ms` under which a stored value
of `0` counts as missing. -/
def computeNextRun (cronNext : String → Option String → Int → Option Int)
    (s : CronSchedule) (now : Int) : Option Int :=
  match s.kind with
  | .at =>
    match s.at_ms with
    | none => none
    | some a =>
      if a = 0 then none                      -- `if not schedule.at_ms`
      else if now - maxDelayMs < a then some a
      else none                               -- too stale, skip permanently
  | .every =>
    match s.every_ms with
    | none => none
    | some v => if v ≤ 0 then none else some (now + v)
  | .cron =>
    match s.expr with
    | none => none
    | some e => cronNext e s.tz now

/-- `CronService._arm_timer`'s delay: `max(0, next_wake - _now_ms())`. -/
def armDelay (nextWake now : Int) : Int := max 0 (nextWake - now)

/-- The due-job test of `CronService._on_timer`:
`j.enabled and j.state.next_run_at_ms and now >= j.state.next_run_at_ms`.
`next_run_at_ms` is Python-truthy when present and nonzero. -/
def isDue (now : Int) (j : CronJob) : Bool :=
  j.enabled &&
    match j.state.next_run_at_ms with
    | none => false
    | some v => v ≠ 0 && v ≤ now

/-- `CronService._on_timer`'s due list: the store's jobs filtered by
`isDue`, in store order; `_on_timer` then awaits `_execute_job` on each
element of this list sequentially, so this list is the execution order. -/
def dueJobs (jobs : List CronJob) (now : Int) : List CronJob :=
  jobs.filter (isDue now)

/-- The state mutation at the top of `CronService._execute_job`: run the
`on_job` callback (`outcome` is `.ok` when it returns normally, `.error e`
when it raises an exception with message `e`), then set `last_status`,
`last_error`, `last_run_at_ms := start_ms` and `updated_at_ms`. -/
def executeJobUpdate (job : CronJob) (outcome : Except String Unit)
    (startMs updMs : Int) : CronJob :=
  let st := match outcome with
    | .ok _ =>
      { job.state with
        last_status := some LastStatus.ok
        last_error := none
        last_run_at_ms := some startMs }
    | .error e =>
      { job.state with
        last_status := some LastStatus.error
        last_error := some e
        last_run_at_ms := some startMs }
  { job with state := st, updated_at_ms := updMs }

/-- `CronService._execute_job` acting on the store's job list.  The Python
code mutates the `job` object in place (the object aliases its entry in
`self._store.jobs`, modelled by the `map`), then for one-shot (`at`) jobs
removes every entry with the job's id; for recurring jobs it recomputes
`next_run_at_ms` at a fresh clock reading `recomputeMs`.  Returns the new
job list together with the final state of the executed job object. -/
def executeJob (cronNext : String → Option String → Int → Option Int)
    (jobs : List CronJob) (job : CronJob) (outcome : Except String Unit)
    (startMs updMs recomputeMs : Int) : List CronJob × CronJob :=
  let job' := executeJobUpdate job outcome startMs updMs
  if job.schedule.kind = ScheduleKind.at then
    ((jobs.map (fun j => if j.id = job.id then job' else j)).filter
        (fun j => j.id ≠ job.id),
      job')
  else
    let job2 := { job' with state :=
      { job'.state with
        next_run_at_ms := computeNextRun cronNext job.schedule recomputeMs } }
    (jobs.map (fun j => if j.id = job.id then job2 else j), job2)

/-!
## Heartbeat — `src/iflow_bot/heartbeat/service.py`
-/

/-- The `skip_patterns` set of `_is_heartbeat_empty`. -/
def hbSkipPatterns : List Txt :=
  ["- [ ]".toList, "* [ ]".toList, "- [x]".toList, "* [x]".toList]

/-- One iteration of the `_is_heartbeat_empty` loop: a (stripped) line is
skipped when it is empty, a heading, an HTML comment opener, or one of the
checkbox patterns. -/
def hbSkipLine (line : Txt) : Bool :=
  let l := pyStrip line
  l = [] || "#".toList.isPrefixOf l || "<!--".toList.isPrefixOf l ||
    hbSkipPatterns.contains l

/-- `_is_heartbeat_empty(content)`: `True` for `None` or falsy content, else
`True` iff every line of the content is skipped. -/
def isHeartbeatEmpty (content : Option Txt) : Bool :=
  match content with
  | none => true
  | some c =>
    if c = [] then true                      -- `if not content`
    else (splitNl c).all hbSkipLine

/-- `HeartbeatService._tick`, restricted to whether `on_heartbeat` is
invoked: the tick returns early exactly when `_is_heartbeat_empty` holds of
the file content (`content` is `none` when `HEARTBEAT.md` is absent or
unreadable). -/
def tickInvokesHeartbeat (content : Option Txt) : Bool :=
  !(isHeartbeatEmpty content)

/-!
## Streaming fan-out — `AgentLoop._process_with_streaming` in
`src/iflow_bot/engine/loop.py`

A streaming turn feeds the non-thought, non-empty chunks of the agent's
reply through `on_chunk` in order, then runs the end-of-stream code.  The
chunk sequence of a turn is a `List Txt`; the random `randint(10, 25)`
threshold draws are an explicit sequence `thr : Nat → Nat` (`thr i` is the
`i`-th draw; the first draw happens before the first chunk, a redraw after
every flush); `analyzeMedia` stands for the `ResultAnalyzer`-detected file
list, which depends on the filesystem.
-/

/-- Mid-stream snapshot published by `on_chunk` for the edit-last-message
family: content is the cumulative buffer, metadata `_progress=True`,
`_streaming=True`. -/
def snapshotMsg (channel chat_id : String) (c : Txt) : OutboundMessage :=
  { channel := channel, chat_id := chat_id, content := c,
    streaming := true, progress := true }

/-- Final full snapshot published at stream end (same flags, plus the
detected media files). -/
def finalSnapshotMsg (channel chat_id : String) (c : Txt) (media : List Txt) :
    OutboundMessage :=
  { channel := channel, chat_id := chat_id, content := c, media := media,
    streaming := true, progress := true }

/-- The stream-end terminator: empty content, `_streaming_end=True`. -/
def terminatorMsg (channel chat_id : String) : OutboundMessage :=
  { channel := channel, chat_id := chat_id, content := [],
    streamingEnd := true }

/-- Per-turn state of the edit-last-message streaming path:
`self._stream_buffers[key]`, `unflushed_count`, the index of the current
threshold draw, and the outbound messages published so far (in order). -/
structure EditStreamState where
  buffer : Txt := []
  unflushed : Nat := 0
  drawIdx : Nat := 0
  outs : List OutboundMessage := []
deriving DecidableEq, Repr

/-- `on_chunk` for an edit-last-message channel (a streaming channel other
than `"qq"` and `"dingtalk"`): append the chunk to the cumulative buffer,
count unflushed characters, and when the count reaches the current
threshold publish a snapshot of the whole buffer and redraw. -/
def editOnChunk (channel chat_id : String) (thr : Nat → Nat)
    (s : EditStreamState) (chunk : Txt) : EditStreamState :=
  let buffer := s.buffer ++ chunk
  let unflushed := s.unflushed + chunk.length
  if thr s.drawIdx ≤ unflushed then
    { buffer := buffer, unflushed := 0, drawIdx := s.drawIdx + 1,
      outs := s.outs ++ [snapshotMsg channel chat_id buffer] }
  else
    { buffer := buffer, unflushed := unflushed, drawIdx := s.drawIdx,
      outs := s.outs }

/-- A whole streaming turn on an edit-last-message channel: run `on_chunk`
over all chunks, then the end-of-stream code: when the accumulated
`final_content` is non-empty, publish the final full snapshot followed by
the `_streaming_end` terminator; when it is empty (Python-falsy), publish
nothing.  Returns the outbound messages of the turn, in publish order. -/
def editTurn (channel chat_id : String) (thr : Nat → Nat)
    (analyzeMedia : Txt → List Txt) (chunks : List Txt) :
    List OutboundMessage :=
  let s := chunks.foldl (editOnChunk channel chat_id thr) {}
  let final := s.buffer
  if final = [] then s.outs
  else
    s.outs ++
      [finalSnapshotMsg channel chat_id final (analyzeMedia final),
       terminatorMsg channel chat_id]

/-- The spec's shape for one streaming turn: zero or more snapshots — each
flagged `_streaming` and `_progress`, not `_streaming_end`, each a prefix
of the full text, adjacent contents extending each other — followed by one
terminator with empty content and `_streaming_end=True`. -/
def EditTurnShape (full : Txt) (msgs : List OutboundMessage) : Prop :=
  ∃ snaps term, msgs = snaps ++ [term] ∧
    term.content = [] ∧ term.streamingEnd = true ∧
    (∀ m ∈ snaps,
      m.streaming = true ∧ m.progress = true ∧ m.streamingEnd = false ∧
        m.content <+: full) ∧
    List.Chain' (fun a b => a.content <+: b.content) snaps

/-!
## QQ line-buffered streaming path (same function, `channel == "qq"`)

Emissions on this path go straight to `qq_channel.send`; each emitted
segment is recorded here together with the value of `qq_in_code_block` at
the moment of the flush (instrumentation used to state the code-block
invariant — the sent message itself is `mkQQSegment`).
-/

/-- The plain outbound message the QQ path sends for one segment. -/
def mkQQSegment (channel chat_id : String) (c : Txt) : OutboundMessage :=
  { channel := channel, chat_id := chat_id, content := c }

/-- One recorded QQ emission: the segment content and the
`qq_in_code_block` flag at flush time. -/
structure QQEmit where
  content : Txt
  inCodeAtFlush : Bool
deriving DecidableEq, Repr

/-- Per-turn state of the QQ streaming path: the cumulative
`self._stream_buffers[key]`, `qq_line_buffer`, `qq_segment_buffer`,
`qq_newline_count`, `qq_in_code_block`, and the emissions so far. -/
structure QQState where
  accumulated : Txt := []
  lineBuffer : Txt := []
  segBuffer : Txt := []
  newlineCount : Nat := 0
  inCode : Bool := false
  emitted : List QQEmit := []
deriving DecidableEq, Repr

/-- One iteration of the `while "\n" in qq_line_buffer` loop body, applied
to a complete line (without its trailing `"\n"`): a line whose stripped
form starts with ``` toggles `qq_in_code_block`; the line joins the segment
buffer; only when outside a code block does the newline count, and a count
reaching the threshold flushes the stripped segment (if non-empty) and
resets buffer and count. -/
def qqProcLine (th : Nat) (s : QQState) (line : Txt) : QQState :=
  let inCode' := if "```".toList.isPrefixOf (pyStrip line) then !s.inCode
                 else s.inCode
  let seg' := s.segBuffer ++ line ++ ['\n']
  if inCode' then
    { s with segBuffer := seg', inCode := inCode' }
  else
    let cnt' := s.newlineCount + 1
    if th ≤ cnt' then
      let segment := pyStrip seg'
      { s with
        segBuffer := []
        newlineCount := 0
        inCode := inCode'
        emitted :=
          if segment = [] then s.emitted
          else s.emitted ++ [⟨segment, inCode'⟩] }
    else
      { s with segBuffer := seg', newlineCount := cnt', inCode := inCode' }

/-- `on_chunk` for the QQ channel: extend the cumulative buffer; when
`split_threshold > 0`, append the chunk to `qq_line_buffer`, process every
complete line of it in order, and keep the trailing partial line.  (The
`while` loop repeatedly extracting up to the first `"\n"` is exactly a fold
of `qqProcLine` over all but the last component of the newline split.) -/
def qqOnChunk (th : Nat) (s : QQState) (chunk : Txt) : QQState :=
  let s := { s with accumulated := s.accumulated ++ chunk }
  if 0 < th then
    let parts := splitNl (s.lineBuffer ++ chunk)
    let s' := parts.dropLast.foldl (qqProcLine th) { s with lineBuffer := [] }
    { s' with lineBuffer := parts.getLastD [] }
  else s

/-- Feed all chunks of a turn through the QQ `on_chunk`. -/
def qqRunChunks (th : Nat) (chunks : List Txt) : QQState :=
  chunks.foldl (qqOnChunk th) {}

/-- The QQ end-of-stream code: with `split_threshold <= 0`, send the
stripped full accumulated content (if non-empty) as the single outbound of
the turn; with a positive threshold, flush the stripped remainder
`qq_segment_buffer + qq_line_buffer` (if non-empty). -/
def qqFinish (th : Nat) (s : QQState) : QQState :=
  if th = 0 then
    let c := pyStrip s.accumulated
    if c = [] then s else { s with emitted := s.emitted ++ [⟨c, s.inCode⟩] }
  else
    let r := pyStrip (s.segBuffer ++ s.lineBuffer)
    if r = [] then s else { s with emitted := s.emitted ++ [⟨r, s.inCode⟩] }

/-- A whole QQ streaming turn: all chunks, then the end-of-stream flush. -/
def qqTurn (th : Nat) (chunks : List Txt) : QQState :=
  qqFinish th (qqRunChunks th chunks)

/-!
## Spec-side predicates and fixed parameters used in theorem statements
-/

/-- The non-actionable line forms named by the heartbeat claim, stated in
the claim's own words over the trimmed line: empty, a line starting with
`#`, a line starting with `<!--`, or exactly one of the four checkbox
lines. -/
def hbClaimNonActionable (t : Txt) : Prop :=
  t = [] ∨ "#".toList <+: t ∨ "<!--".toList <+: t ∨
    t = "- [ ]".toList ∨ t = "* [ ]".toList ∨
    t = "- [x]".toList ∨ t = "* [x]".toList

instance : DecidablePred hbClaimNonActionable := fun t => by
  unfold hbClaimNonActionable; infer_instance

/-- A trivial instantiation of the external cron-expression evaluator, used
to state facts about schedules whose `kind` is not `cron`. -/
def noCron : String → Option String → Int → Option Int := fun _ _ _ => none

/-!
# Theorems

General-purpose lemmas first, then one theorem per checked claim (with its
witness or counterexample).
-/

theorem splitNl_ne_nil (l : Txt) : splitNl l ≠ [] := by
  cases l with
  | nil => simp [splitNl]
  | cons c rest =>
    simp only [splitNl]
    cases splitNl rest with
    | nil => simp
    | cons h t =>
      simp only []
      split <;> simp

theorem lookup_filter_ne (m : Mappings) (k : String) :
    (m.filter (fun p => p.1 ≠ k)).lookup k = none := by
  induction m with
  | nil => rfl
  | cons a rest ih =>
    by_cases h : a.1 = k
    · simpa [List.filter, h] using ih
    · have hk : (k == a.1) = false := by simp [Ne.symm h]
      simp only [List.filter, h, decide_not, List.lookup, hk]
      simpa [decide_not] using ih

/-- C2 (counterexample): `clear_session` does not return the prior session
id.  Two session maps that bind `telegram:42` to two different session ids
produce the same return value, `True`: the returned value is a mere
existence Boolean and cannot be the prior id. -/
theorem claim_C2_counterexample :
    getSessionId [("telegram:42", "session-a")] "telegram" "42" = some "session-a" ∧
    getSessionId [("telegram:42", "session-b")] "telegram" "42" = some "session-b" ∧
    "session-a" ≠ "session-b" ∧
    (clearSession [("telegram:42", "session-a")] "telegram" "42").1 = true ∧
    (clearSession [("telegram:42", "session-b")] "telegram" "42").1 = true := by
  refine ⟨by decide, by decide, by decide, by decide, by decide⟩

/-- C2 (amended): for every key with a session binding,
`clear_session(channel, chat_id)` removes the binding and returns `True`
(the Boolean fact that a binding existed), not the prior id. -/
theorem claim_C2 (m : Mappings) (channel chat_id sid : String)
    (h : getSessionId m channel chat_id = some sid) :
    (clearSession m channel chat_id).1 = true ∧
    getSessionId (clearSession m channel chat_id).2 channel chat_id = none := by
  have hs : ((m.lookup (sessionKey channel chat_id)).isSome : Prop) := by
    simp [getSessionId] at h
    simp [h]
  constructor
  · simp [clearSession, hs]
  · simp only [clearSession, if_pos hs, getSessionId]
    exact lookup_filter_ne m (sessionKey channel chat_id)

/-- C2 witness: concrete instantiation of `claim_C2`. -/
theorem claim_C2_witness :
    getSessionId [("telegram:42", "session-a")] "telegram" "42" = some "session-a" ∧
    ((clearSession [("telegram:42", "session-a")] "telegram" "42").1 = true ∧
      getSessionId (clearSession [("telegram:42", "session-a")] "telegram" "42").2
        "telegram" "42" = none) :=
  ⟨by decide, claim_C2 [("telegram:42", "session-a")] "telegram" "42" "session-a" (by decide)⟩

/-- C9 (counterexample): an existing binding can be overwritten when its
value is the empty string — Python's `if not session_id` treats the bound
empty string as no binding, so `_chat_cli` stores the extracted id over
it. -/
theorem claim_C9_counterexample :
    getSessionId [("telegram:42", "")] "telegram" "42" = some "" ∧
    getSessionId
        (chatCliBindingUpdate [("telegram:42", "")] "telegram" "42" (some "session-x"))
        "telegram" "42" = some "session-x" ∧
    ("" : String) ≠ "session-x" := by
  refine ⟨by decide, by decide, by decide⟩

/-- C9 (amended): in CLI mode, a key bound to a *non-empty* session id is
never rebound: `_chat_cli` leaves the whole session map unchanged whatever
session id the process output yields.  A binding is written only when the
existing one is absent or empty and the output yields one. -/
theorem claim_C9 (m : Mappings) (channel chat_id : String)
    (extracted : Option String) (s : String)
    (h : getSessionId m channel chat_id = some s) (h2 : s ≠ "") :
    chatCliBindingUpdate m channel chat_id extracted = m := by
  unfold chatCliBindingUpdate
  cases extracted with
  | none => rfl
  | some e => simp [h, h2]

/-- C9 witness: concrete instantiation of `claim_C9`. -/
theorem claim_C9_witness :
    getSessionId [("telegram:42", "session-a")] "telegram" "42" = some "session-a" ∧
    "session-a" ≠ "" ∧
    chatCliBindingUpdate [("telegram:42", "session-a")] "telegram" "42"
        (some "session-x") = [("telegram:42", "session-a")] :=
  ⟨by decide, by decide,
    claim_C9 [("telegram:42", "session-a")] "telegram" "42" (some "session-x")
      "session-a" (by decide) (by decide)⟩

theorem hbSkipLine_of_claim (line : Txt)
    (h : hbClaimNonActionable (pyStrip line)) : hbSkipLine line = true := by
  unfold hbSkipLine hbSkipPatterns
  unfold hbClaimNonActionable at h
  simp only [List.isPrefixOf_iff_prefix] at h ⊢
  simp at h ⊢
  tauto

/-- C10: when every line of `HEARTBEAT.md`, after trimming, is empty, a
heading, an HTML comment opener, or one of the four checkbox lines
(including the checked ones `- [x]` and `* [x]`), the heartbeat tick
returns without invoking `on_heartbeat`. -/
theorem claim_C10 (c : Txt)
    (h : ∀ line ∈ splitNl c, hbClaimNonActionable (pyStrip line)) :
    tickInvokesHeartbeat (some c) = false := by
  unfold tickInvokesHeartbeat isHeartbeatEmpty
  by_cases hc : c = []
  · simp [hc]
  · have : (splitNl c).all hbSkipLine = true :=
      List.all_eq_true.mpr fun line hl => hbSkipLine_of_claim line (h line hl)
    simp [hc, this]

/-- C10 witness: the spec's `HEARTBEAT.md` example extended with checked
checkboxes does not trigger the heartbeat. -/
theorem claim_C10_witness :
    (∀ line ∈ splitNl "# Title\n- [x]\n* [x]\n- [ ]\n<!-- c -->".toList,
      hbClaimNonActionable (pyStrip line)) ∧
    tickInvokesHeartbeat (some "# Title\n- [x]\n* [x]\n- [ ]\n<!-- c -->".toList)
      = false :=
  ⟨by decide, claim_C10 _ (by decide)⟩

/-- C6: a bus whose queues are exactly at capacity drops the next published
message in both directions: the publish returns with the bus state — hence
the queue contents and their order — unchanged, so subsequent consumes
return exactly the previously queued messages. -/
theorem claim_C6 (b : MessageBus) (mi : InboundMessage) (mo : OutboundMessage)
    (hcap : 0 < b.cap)
    (hin : b.inbound.length = b.cap) (hout : b.outbound.length = b.cap) :
    b.publish_inbound mi = b ∧ b.publish_outbound mo = b ∧
    (b.publish_inbound mi).consume_inbound = b.consume_inbound ∧
    (b.publish_outbound mo).consume_outbound = b.consume_outbound := by
  have h1 : b.publish_inbound mi = b := by
    unfold MessageBus.publish_inbound
    rcases hr : b.running with _ | _
    · simp
    · simp [hr, hin, Nat.pos_iff_ne_zero.mp hcap]
  have h2 : b.publish_outbound mo = b := by
    unfold MessageBus.publish_outbound
    rcases hr : b.running with _ | _
    · simp
    · simp [hr, hout, Nat.pos_iff_ne_zero.mp hcap]
  exact ⟨h1, h2, by rw [h1], by rw [h2]⟩

/-- C6 witness: a default-capacity (100) bus holding 100 messages in each
direction. -/
theorem claim_C6_witness :
    (0 < (100 : Nat) ∧
      (List.replicate 100
        ({ channel := "telegram", chat_id := "1", content := ['h'] }
          : InboundMessage)).length = 100 ∧
      (List.replicate 100
        ({ channel := "telegram", chat_id := "1", content := ['h'] }
          : OutboundMessage)).length = 100) ∧
    ({ cap := 100, running := true,
       inbound := List.replicate 100
         { channel := "telegram", chat_id := "1", content := ['h'] },
       outbound := List.replicate 100
         { channel := "telegram", chat_id := "1", content := ['h'] } }
        : MessageBus).publish_inbound
        { channel := "qq", chat_id := "2", content := ['x'] } =
      { cap := 100, running := true,
        inbound := List.replicate 100
          { channel := "telegram", chat_id := "1", content := ['h'] },
        outbound := List.replicate 100
          { channel := "telegram", chat_id := "1", content := ['h'] } } :=
  ⟨⟨by decide, by simp, by simp⟩,
    (claim_C6 _ { channel := "qq", chat_id := "2", content := ['x'] }
      { channel := "qq", chat_id := "2", content := ['x'] }
      (by decide) (by simp) (by simp)).1⟩

/-- C4 (counterexample): an `at` schedule whose timestamp is `0` is treated
as having *no* timestamp (`if not schedule.at_ms`), so at `now = 0` — where
`at_ms > now − 5 min` holds — the computed next run is `None`, not
`at_ms`. -/
theorem claim_C4_counterexample :
    computeNextRun noCron { kind := ScheduleKind.at, at_ms := some 0 } 0 = none ∧
    (0 : Int) > 0 - maxDelayMs := by
  refine ⟨rfl, by norm_num [maxDelayMs]⟩

/-- C4 (amended): for an `at` schedule with a *nonzero* timestamp `a`, the
next run is `a` exactly when `a > now − 5 min` and `None` otherwise; in
particular (for any instant more than 5 minutes past the epoch) a job
scheduled 4 min 59 s in the past re-arms at its past timestamp — armed with
delay `max(0, next − now) = 0`, i.e. immediately — while a job scheduled
5 min 1 s in the past gets `None` and is skipped permanently. -/
theorem claim_C4 (cronNext : String → Option String → Int → Option Int)
    (now a : Int) (ha : a ≠ 0) (hnow : 300000 < now) :
    (computeNextRun cronNext { kind := ScheduleKind.at, at_ms := some a } now
        = some a ↔ now - maxDelayMs < a) ∧
    computeNextRun cronNext
        { kind := ScheduleKind.at, at_ms := some (now - 299000) } now
      = some (now - 299000) ∧
    armDelay (now - 299000) now = 0 ∧
    computeNextRun cronNext
        { kind := ScheduleKind.at, at_ms := some (now - 301000) } now
      = none := by
  have hm : maxDelayMs = 300000 := by norm_num [maxDelayMs]
  refine ⟨?_, ?_, ?_, ?_⟩
  · simp only [computeNextRun, if_neg ha]
    constructor
    · intro h
      by_contra hlt
      rw [if_neg hlt] at h
      exact Option.noConfusion h
    · intro h
      rw [if_pos h]
  · have h1 : now - 299000 ≠ 0 := by omega
    have h2 : now - maxDelayMs < now - 299000 := by omega
    simp only [computeNextRun, if_neg h1, if_pos h2]
  · unfold armDelay
    omega
  · simp only [computeNextRun]
    by_cases h1 : now - 301000 = 0
    · rw [if_pos h1]
    · have h2 : ¬ now - maxDelayMs < now - 301000 := by omega
      rw [if_neg h1, if_neg h2]

/-- C4 witness: concrete instantiation of `claim_C4`. -/
theorem claim_C4_witness :
    ((5 : Int) ≠ 0 ∧ (300000 : Int) < 1000000) ∧
    ((computeNextRun noCron { kind := ScheduleKind.at, at_ms := some 5 } 1000000
        = some 5 ↔ (1000000 : Int) - maxDelayMs < 5) ∧
      computeNextRun noCron
          { kind := ScheduleKind.at, at_ms := some (1000000 - 299000) } 1000000
        = some (1000000 - 299000) ∧
      armDelay (1000000 - 299000) 1000000 = 0 ∧
      computeNextRun noCron
          { kind := ScheduleKind.at, at_ms := some (1000000 - 301000) } 1000000
        = none) :=
  ⟨⟨by decide, by decide⟩, claim_C4 noCron 1000000 5 (by decide) (by decide)⟩

/-- C5: when a one-shot (`at`) job is executed — whether `on_job` returned
normally or raised — no job with its id remains in the store's job list,
and the executed job object's state records `last_status = ok` with
`last_error` cleared on success, or `last_status = error` with the
exception message in `last_error` on failure. -/
theorem claim_C5 (cronNext : String → Option String → Int → Option Int)
    (jobs : List CronJob) (job : CronJob) (outcome : Except String Unit)
    (startMs updMs recomputeMs : Int)
    (h : job.schedule.kind = ScheduleKind.at) :
    (∀ j ∈ (executeJob cronNext jobs job outcome startMs updMs recomputeMs).1,
      j.id ≠ job.id) ∧
    (executeJob cronNext jobs job outcome startMs updMs recomputeMs).2.state.last_status
      = some (match outcome with
          | .ok _ => LastStatus.ok
          | .error _ => LastStatus.error) ∧
    (∀ u, outcome = .ok u →
      (executeJob cronNext jobs job outcome startMs updMs recomputeMs).2.state.last_error
        = none) ∧
    (∀ e, outcome = .error e →
      (executeJob cronNext jobs job outcome startMs updMs recomputeMs).2.state.last_error
        = some e) := by
  unfold executeJob
  rw [if_pos h]
  refine ⟨?_, ?_, ?_, ?_⟩
  · intro j hj
    have := (List.mem_filter.mp hj).2
    simpa using this
  · cases outcome <;> rfl
  · intro u hu; subst hu; rfl
  · intro e he; subst he; rfl

/-- C5 witness: concrete instantiation of `claim_C5` with a failing
callback. -/
theorem claim_C5_witness :
    ({ id := "j1", schedule := { kind := ScheduleKind.at, at_ms := some 7 } }
        : CronJob).schedule.kind = ScheduleKind.at ∧
    (∀ j ∈ (executeJob noCron
        [{ id := "j1", schedule := { kind := ScheduleKind.at, at_ms := some 7 } }]
        { id := "j1", schedule := { kind := ScheduleKind.at, at_ms := some 7 } }
        (Except.error "boom") 10 11 12).1, j.id ≠ "j1") ∧
    (executeJob noCron
        [{ id := "j1", schedule := { kind := ScheduleKind.at, at_ms := some 7 } }]
        { id := "j1", schedule := { kind := ScheduleKind.at, at_ms := some 7 } }
        (Except.error "boom") 10 11 12).2.state.last_error = some "boom" := by
  have h := claim_C5 noCron
    [{ id := "j1", schedule := { kind := ScheduleKind.at, at_ms := some 7 } }]
    { id := "j1", schedule := { kind := ScheduleKind.at, at_ms := some 7 } }
    (Except.error "boom") 10 11 12 rfl
  exact ⟨rfl, h.1, h.2.2.2 "boom" rfl⟩

/-- C3 (counterexample): `_on_timer` runs due jobs in store order, not by
`next_run_at_ms`.  With the job due at 200 ms stored before the job due at
100 ms and the timer firing at 300 ms, the execution order has the later
`next_run_at_ms` first. -/
theorem claim_C3_counterexample :
    (dueJobs
        [{ id := "a", schedule := { kind := ScheduleKind.every, every_ms := some 1 },
           state := { next_run_at_ms := some 200 } },
         { id := "b", schedule := { kind := ScheduleKind.every, every_ms := some 1 },
           state := { next_run_at_ms := some 100 } }]
        300).map (fun j => j.state.next_run_at_ms) = [some 200, some 100] ∧
    ¬ ((200 : Int) ≤ 100) := by
  refine ⟨by decide, by decide⟩

/-- C3 (amended): when the timer fires, the due jobs are executed
sequentially in the order they appear in the store's job list (the due list
is a sublist of the store's list), which need not be non-decreasing in
`next_run_at_ms`. -/
theorem claim_C3 (jobs : List CronJob) (now : Int) :
    List.Sublist (dueJobs jobs now) jobs :=
  List.filter_sublist jobs

theorem qqOnChunk_zero (s : QQState) (chunk : Txt) :
    qqOnChunk 0 s chunk = { s with accumulated := s.accumulated ++ chunk } := by
  unfold qqOnChunk
  simp

theorem foldl_qqOnChunk_zero (chunks : List Txt) (s : QQState) :
    chunks.foldl (qqOnChunk 0) s
      = { s with accumulated := s.accumulated ++ chunks.flatten } := by
  induction chunks generalizing s with
  | nil => simp
  | cons c cs ih =>
    rw [List.foldl_cons, qqOnChunk_zero, ih]
    simp

/-- C8 (counterexample): a streaming turn on the QQ channel with
`split_threshold = 0` and no (or only-whitespace) chunks produces *zero*
outbound messages, not exactly one. -/
theorem claim_C8_counterexample :
    (qqTurn 0 []).emitted = [] ∧ ¬ ((qqTurn 0 []).emitted.length = 1) := by
  refine ⟨rfl, by decide⟩

/-- C8 (amended): a streaming turn on the QQ channel with
`split_threshold = 0` produces at most one outbound message: exactly one —
whose content is the stripped concatenation of all chunks of the turn —
when that stripped concatenation is non-empty, and none otherwise. -/
theorem claim_C8 (chunks : List Txt) (h : pyStrip chunks.flatten ≠ []) :
    (qqTurn 0 chunks).emitted.map QQEmit.content = [pyStrip chunks.flatten] := by
  have hrun : qqRunChunks 0 chunks
      = { accumulated := chunks.flatten, lineBuffer := [], segBuffer := [],
          newlineCount := 0, inCode := false, emitted := [] } := by
    unfold qqRunChunks
    rw [foldl_qqOnChunk_zero]
    simp
  unfold qqTurn
  rw [hrun]
  unfold qqFinish
  simp [h]

/-- C8 witness: concrete instantiation of `claim_C8`. -/
theorem claim_C8_witness :
    pyStrip (["  hi".toList, " there \n".toList] : List Txt).flatten ≠ [] ∧
    (qqTurn 0 ["  hi".toList, " there \n".toList]).emitted.map QQEmit.content
      = [pyStrip (["  hi".toList, " there \n".toList] : List Txt).flatten] :=
  ⟨by decide, claim_C8 ["  hi".toList, " there \n".toList] (by decide)⟩

theorem qqProcLine_inCode (th : Nat) (s : QQState) (line : Txt) :
    (qqProcLine th s line).inCode =
      (if "```".toList.isPrefixOf (pyStrip line) then !s.inCode else s.inCode) := by
  unfold qqProcLine
  cases hf : "```".toList.isPrefixOf (pyStrip line) <;>
    cases hic : s.inCode <;>
      simp [hf, hic] <;>
      split <;> rfl

theorem qqProcLine_count_in_code (th : Nat) (s : QQState) (line : Txt)
    (h : (qqProcLine th s line).inCode = true) :
    (qqProcLine th s line).newlineCount = s.newlineCount := by
  unfold qqProcLine at h ⊢
  cases hf : "```".toList.isPrefixOf (pyStrip line) <;>
    cases hic : s.inCode <;>
      simp only [hf, hic] at h ⊢ <;>
      (try rfl) <;>
      (repeat' split at h) <;>
      simp_all

theorem qqProcLine_flushes (th : Nat) (s : QQState) (line : Txt)
    (h : ∀ e ∈ s.emitted, e.inCodeAtFlush = false) :
    ∀ e ∈ (qqProcLine th s line).emitted, e.inCodeAtFlush = false := by
  intro e he
  simp only [qqProcLine] at he
  repeat' split at he
  all_goals simp_all
  all_goals (rcases he with he | he)
  all_goals (first | exact h e he | rw [he])

theorem foldl_qqProcLine_flushes (th : Nat) (lines : List Txt) (s : QQState)
    (h : ∀ e ∈ s.emitted, e.inCodeAtFlush = false) :
    ∀ e ∈ (lines.foldl (qqProcLine th) s).emitted, e.inCodeAtFlush = false := by
  induction lines generalizing s with
  | nil => simpa using h
  | cons l ls ih =>
    rw [List.foldl_cons]
    exact ih _ (qqProcLine_flushes th s l h)

theorem qqOnChunk_flushes (th : Nat) (s : QQState) (chunk : Txt)
    (h : ∀ e ∈ s.emitted, e.inCodeAtFlush = false) :
    ∀ e ∈ (qqOnChunk th s chunk).emitted, e.inCodeAtFlush = false := by
  intro e he
  simp only [qqOnChunk] at he
  split at he
  · exact foldl_qqProcLine_flushes th _
      { s with accumulated := s.accumulated ++ chunk, lineBuffer := ([] : Txt) }
      h e he
  · exact h e he

theorem qqRunChunks_flushes (th : Nat) (chunks : List Txt) :
    ∀ e ∈ (qqRunChunks th chunks).emitted, e.inCodeAtFlush = false := by
  have key : ∀ (cs : List Txt) (s : QQState),
      (∀ e ∈ s.emitted, e.inCodeAtFlush = false) →
      ∀ e ∈ (cs.foldl (qqOnChunk th) s).emitted, e.inCodeAtFlush = false := by
    intro cs
    induction cs with
    | nil => intro s hs; simpa using hs
    | cons c cs ih =>
      intro s hs
      rw [List.foldl_cons]
      exact ih _ (qqOnChunk_flushes th s c hs)
  exact key chunks {} (by simp)

/-- C7: on the line-buffered (QQ) streaming path with `split_threshold > 0`,
(i) a complete line whose trimmed form starts with ``` toggles the
`in_code_block` flag, (ii) `newline_count` never changes on a line that
leaves the state inside a code block, and (iii) over every chunk sequence —
including fences split across chunks — every mid-stream segment flush
happens with `in_code_block = false`, so no code block's content is ever
split across two outbound segments. -/
theorem claim_C7 (th : Nat) (hth : 0 < th) :
    (∀ (s : QQState) (line : Txt), (qqProcLine th s line).inCode =
        (if "```".toList.isPrefixOf (pyStrip line) then !s.inCode else s.inCode)) ∧
    (∀ (s : QQState) (line : Txt), (qqProcLine th s line).inCode = true →
        (qqProcLine th s line).newlineCount = s.newlineCount) ∧
    (∀ chunks : List Txt,
      ∀ e ∈ (qqRunChunks th chunks).emitted, e.inCodeAtFlush = false) :=
  ⟨fun s line => qqProcLine_inCode th s line,
   fun s line h => qqProcLine_count_in_code th s line h,
   fun chunks => qqRunChunks_flushes th chunks⟩

/-- C7 witness: `claim_C7` at threshold 1, together with the spec's example
chunk sequence with a fence split across two chunks. -/
theorem claim_C7_witness :
    (0 < 1) ∧
    ((∀ (s : QQState) (line : Txt), (qqProcLine 1 s line).inCode =
        (if "```".toList.isPrefixOf (pyStrip line) then !s.inCode else s.inCode)) ∧
      (∀ (s : QQState) (line : Txt), (qqProcLine 1 s line).inCode = true →
        (qqProcLine 1 s line).newlineCount = s.newlineCount) ∧
      (∀ chunks : List Txt,
        ∀ e ∈ (qqRunChunks 1 chunks).emitted, e.inCodeAtFlush = false)) ∧
    (qqRunChunks 1
        ["``".toList, "`\n".toList, "code\n".toList, "```\n".toList, "End".toList]
      ).emitted.map QQEmit.content = ["```\ncode\n```".toList] :=
  ⟨by decide, claim_C7 1 (by decide), by decide⟩

theorem editOnChunk_buffer (channel chat_id : String) (thr : Nat → Nat)
    (s : EditStreamState) (chunk : Txt) :
    (editOnChunk channel chat_id thr s chunk).buffer = s.buffer ++ chunk := by
  simp only [editOnChunk]
  split <;> rfl

theorem foldl_editOnChunk_buffer (channel chat_id : String) (thr : Nat → Nat)
    (chunks : List Txt) (s : EditStreamState) :
    (chunks.foldl (editOnChunk channel chat_id thr) s).buffer
      = s.buffer ++ chunks.flatten := by
  induction chunks generalizing s with
  | nil => simp
  | cons c cs ih =>
    rw [List.foldl_cons, ih, editOnChunk_buffer]
    simp

theorem editOnChunk_inv (channel chat_id : String) (thr : Nat → Nat)
    (s : EditStreamState) (chunk : Txt)
    (h1 : ∀ m ∈ s.outs, m.streaming = true ∧ m.progress = true ∧
        m.streamingEnd = false ∧ m.content <+: s.buffer)
    (h2 : List.Chain' (fun a b => a.content <+: b.content) s.outs) :
    (∀ m ∈ (editOnChunk channel chat_id thr s chunk).outs,
      m.streaming = true ∧ m.progress = true ∧ m.streamingEnd = false ∧
        m.content <+: (editOnChunk channel chat_id thr s chunk).buffer) ∧
    List.Chain' (fun a b => a.content <+: b.content)
      (editOnChunk channel chat_id thr s chunk).outs := by
  simp only [editOnChunk]
  split
  · constructor
    · intro m hm
      rcases List.mem_append.mp hm with hm | hm
      · obtain ⟨ha, hb, hc, hd⟩ := h1 m hm
        exact ⟨ha, hb, hc, hd.trans (List.prefix_append _ _)⟩
      · rw [List.mem_singleton.mp hm]
        exact ⟨rfl, rfl, rfl, List.prefix_refl _⟩
    · rw [List.chain'_append]
      refine ⟨h2, List.chain'_singleton _, ?_⟩
      intro x hx y hy
      have hy' : snapshotMsg channel chat_id (s.buffer ++ chunk) = y := by
        simpa using hy
      rw [← hy']
      exact ((h1 x (List.mem_of_mem_getLast? hx)).2.2.2).trans
        (List.prefix_append _ _)
  · refine ⟨?_, h2⟩
    intro m hm
    obtain ⟨ha, hb, hc, hd⟩ := h1 m hm
    exact ⟨ha, hb, hc, hd.trans (List.prefix_append _ _)⟩

theorem foldl_editOnChunk_inv (channel chat_id : String) (thr : Nat → Nat)
    (chunks : List Txt) (s : EditStreamState)
    (h1 : ∀ m ∈ s.outs, m.streaming = true ∧ m.progress = true ∧
        m.streamingEnd = false ∧ m.content <+: s.buffer)
    (h2 : List.Chain' (fun a b => a.content <+: b.content) s.outs) :
    (∀ m ∈ (chunks.foldl (editOnChunk channel chat_id thr) s).outs,
      m.streaming = true ∧ m.progress = true ∧ m.streamingEnd = false ∧
        m.content <+: (chunks.foldl (editOnChunk channel chat_id thr) s).buffer) ∧
    List.Chain' (fun a b => a.content <+: b.content)
      (chunks.foldl (editOnChunk channel chat_id thr) s).outs := by
  induction chunks generalizing s with
  | nil => exact ⟨h1, h2⟩
  | cons c cs ih =>
    rw [List.foldl_cons]
    obtain ⟨g1, g2⟩ := editOnChunk_inv channel chat_id thr s c h1 h2
    exact ih _ g1 g2

/-- C1 (counterexample): a streaming turn on an edit-last-message channel
that receives no chunks publishes *no* outbound message at all — in
particular no `_streaming_end` terminator — so the sequence does not have
the claimed `[snapshot*, terminator]` shape. -/
theorem claim_C1_counterexample :
    editTurn "telegram" "42" (fun _ => 10) (fun _ => []) [] = [] ∧
    ¬ EditTurnShape [] (editTurn "telegram" "42" (fun _ => 10) (fun _ => []) []) := by
  refine ⟨rfl, ?_⟩
  rintro ⟨snaps, term, habs, -, -, -, -⟩
  rw [show editTurn "telegram" "42" (fun _ => 10) (fun _ => []) []
      = ([] : List OutboundMessage) from rfl] at habs
  exact absurd habs.symm (by simp)

/-- C1 (amended): on an edit-last-message channel, every streaming turn
whose accumulated text is non-empty publishes zero or more snapshots
followed by one terminator: each snapshot carries `_streaming=true` and
`_progress=true` with the cumulative text at flush time as content (so
successive snapshot contents extend each other and all are prefixes of the
final text), and the terminator carries empty content with
`_streaming_end=true`.  A turn whose accumulated text is empty publishes
nothing. -/
theorem claim_C1 (channel chat_id : String) (thr : Nat → Nat)
    (analyzeMedia : Txt → List Txt) (chunks : List Txt)
    (h : chunks.flatten ≠ ([] : Txt)) :
    EditTurnShape chunks.flatten
      (editTurn channel chat_id thr analyzeMedia chunks) := by
  unfold editTurn
  have hbuf : (chunks.foldl (editOnChunk channel chat_id thr) {}).buffer
      = chunks.flatten := by
    rw [foldl_editOnChunk_buffer]
    simp
  have hinv := foldl_editOnChunk_inv channel chat_id thr chunks {}
    (by simp [EditStreamState.outs]) (by simp [EditStreamState.outs])
  rw [if_neg (by rw [hbuf]; exact h)]
  refine ⟨(chunks.foldl (editOnChunk channel chat_id thr) {}).outs ++
      [finalSnapshotMsg channel chat_id
        (chunks.foldl (editOnChunk channel chat_id thr) {}).buffer
        (analyzeMedia (chunks.foldl (editOnChunk channel chat_id thr) {}).buffer)],
    terminatorMsg channel chat_id, ?_, rfl, rfl, ?_, ?_⟩
  · rw [List.append_assoc]
    rfl
  · intro m hm
    rcases List.mem_append.mp hm with hm | hm
    · obtain ⟨ha, hb, hc, hd⟩ := hinv.1 m hm
      rw [hbuf] at hd
      exact ⟨ha, hb, hc, hd⟩
    · rw [List.mem_singleton.mp hm]
      refine ⟨rfl, rfl, rfl, ?_⟩
      rw [show (finalSnapshotMsg channel chat_id
          (chunks.foldl (editOnChunk channel chat_id thr) {}).buffer
          (analyzeMedia (chunks.foldl (editOnChunk channel chat_id thr) {}).buffer)).content
        = (chunks.foldl (editOnChunk channel chat_id thr) {}).buffer from rfl]
      rw [hbuf]
  · rw [List.chain'_append]
    refine ⟨hinv.2, List.chain'_singleton _, ?_⟩
    intro x hx y hy
    have hy' : finalSnapshotMsg channel chat_id
        (chunks.foldl (editOnChunk channel chat_id thr) {}).buffer
        (analyzeMedia (chunks.foldl (editOnChunk channel chat_id thr) {}).buffer)
          = y := by
      simpa using hy
    rw [← hy']
    exact (hinv.1 x (List.mem_of_mem_getLast? hx)).2.2.2

/-- C1 witness: concrete instantiation of `claim_C1`. -/
theorem claim_C1_witness :
    ((["Hello, world! This is one chunk. ".toList, "tail".toList] : List Txt).flatten
        ≠ ([] : Txt)) ∧
    EditTurnShape
      (["Hello, world! This is one chunk. ".toList, "tail".toList] : List Txt).flatten
      (editTurn "telegram" "42" (fun _ => 10) (fun _ => [])
        ["Hello, world! This is one chunk. ".toList, "tail".toList]) :=
  ⟨by decide,
    claim_C1 "telegram" "42" (fun _ => 10) (fun _ => [])
      ["Hello, world! This is one chunk. ".toList, "tail".toList] (by decide)⟩

end IflowBot
